import Mathlib

/-!
Verification of the QuMail QKD key manager and envelope codec.

The definitions below are a shallow embedding of the Python sources:
* `src/backend/app.py`  — the Flask QKD key-manager service (class
  `QKDKeyManager` and the `/request_key`, `/get_key/<id>`, `/keys` routes);
* `src/send_email.py`   — AES-256-GCM encryption and the envelope wire format;
* `src/recv_email.py`   — decryption and envelope extraction.

Timestamps are modelled as integers (`datetime` values are totally ordered and
compared with `<`/`≤` only); the SQLite tables become Lean lists carried in an
explicit `Store` value; each call to `datetime.utcnow()` becomes an explicit
integer parameter, in the order the source performs the calls.  Random values
(key ids, key bytes, nonces) are likewise passed in as parameters.
-/

namespace QuMail

/-- Lifecycle status of a stored key (`status` column of `qkd_keys`).
The schema declares the default `active`; `get_key` writes `expired`;
`consumed` appears only in the specification (see `consumeKey`). -/
inductive KeyStatus
  | active
  | expired
  | consumed
deriving DecidableEq, Repr

/-- One row of the `qkd_keys` table (`src/backend/app.py:52-64`).
The `consumed_at` field is not in the SQLite schema; it is carried here
solely for the spec-modelled `consumeKey` operation (spec §3 lists it in
the KeyRecord data model) and is `none` for every row the Python code
creates. -/
structure KeyRow where
  key_id : String
  key_b64 : String
  sender : String
  recipient : String
  created_at : Int
  expires_at : Int
  status : KeyStatus
  algorithm : String
  consumed_at : Option Int
deriving DecidableEq, Repr

/-- One row of the `key_usage_log` table (`src/backend/app.py:66-75`). -/
structure LogEntry where
  key_id : String
  action : String
  timestamp : Int
  details : String
deriving DecidableEq, Repr

/-- The persistent state of the key manager: the `qkd_keys` table and the
append-only `key_usage_log` table. -/
structure Store where
  keys : List KeyRow
  log : List LogEntry
deriving DecidableEq, Repr

/-- Row lookup by primary key (`SELECT ... FROM qkd_keys WHERE key_id = ?`). -/
def findKey (s : Store) (kid : String) : Option KeyRow :=
  s.keys.find? (fun r => r.key_id == kid)

/-- QKDKeyManager.request_key (`src/backend/app.py:103-149`).
`keyId` and `keyB64` stand for the freshly generated random identifier and
base64-encoded key material; `t0` is the `utcnow()` read used for
`created_at` and `t1` the separate, later `utcnow()` read used for
`expires_at` (lines 119-121 call `utcnow()` twice). -/
def requestKey (sender recipient : String) (lifetime : Int)
    (keyId keyB64 : String) (t0 t1 : Int) (s : Store) : KeyRow × Store :=
  let row : KeyRow :=
    { key_id := keyId
      key_b64 := keyB64
      sender := sender
      recipient := recipient
      created_at := t0
      expires_at := t1 + lifetime
      status := KeyStatus.active
      algorithm := "AES-256-GCM"
      consumed_at := none }
  let entry : LogEntry :=
    { key_id := keyId
      action := "KEY_GENERATED"
      timestamp := t0
      details := "Generated for " ++ sender ++ " -> " ++ recipient }
  (row, { keys := s.keys ++ [row], log := s.log ++ [entry] })

/-- The `UPDATE qkd_keys SET status = 'expired' WHERE key_id = ?` statement
(`src/backend/app.py:182-185`). -/
def setExpired (keys : List KeyRow) (kid : String) : List KeyRow :=
  keys.map (fun r => if r.key_id == kid then { r with status := KeyStatus.expired } else r)

/-- QKDKeyManager.get_key (`src/backend/app.py:151-201`).
Returns the selected row (with its eight selected columns, here the whole
`KeyRow`) or `none` when absent; `now` is the `utcnow()` read compared to
`expires_at`, `tAcc` the later `utcnow()` read stamped on the access-log
entry.  On a missing row the function returns before any write. -/
def getKey (kid : String) (now tAcc : Int) (s : Store) : Option KeyRow × Store :=
  match findKey s kid with
  | none => (none, s)
  | some row =>
    let isPast : Bool := decide (row.expires_at < now)
    let keys' := if isPast then setExpired s.keys kid else s.keys
    let kd := if isPast then { row with status := KeyStatus.expired } else row
    let entry : LogEntry :=
      { key_id := kid
        action := "KEY_ACCESSED"
        timestamp := tAcc
        details := "Key retrieved for decryption" }
    (some kd, { keys := keys', log := s.log ++ [entry] })

/-- HTTP-level result of a key-manager route. -/
inductive KeyResponse
  | ok (kd : KeyRow)
  | err (code : Nat) (msg : String)
deriving DecidableEq, Repr

/-- The `/get_key/<key_id>` route (`src/backend/app.py:236-255`): 404 when
the manager returns nothing, 410 when the returned status is expired, and
otherwise a 200 response whose body carries the full `key_data` dict,
including `key_b64`. -/
def getKeyRoute (kid : String) (now tAcc : Int) (s : Store) : KeyResponse × Store :=
  match getKey kid now tAcc s with
  | (none, s') => (KeyResponse.err 404 "Key not found", s')
  | (some kd, s') =>
    if kd.status = KeyStatus.expired then (KeyResponse.err 410 "Key has expired", s')
    else (KeyResponse.ok kd, s')

/-- Python truthiness of `data.get(...)` for a string field: `not x` is true
when the field is absent (`None`) or the empty string. -/
def pyFalsy : Option String → Bool
  | none => true
  | some s => s == ""

/-- HTTP-level result of the `/request_key` route. -/
inductive ReqResponse
  | ok (key_id key_b64 : String) (expires_at : Int) (algorithm : String)
  | err (code : Nat) (msg : String)
deriving DecidableEq, Repr

/-- The `/request_key` route (`src/backend/app.py:208-234`): validates only
that `sender` and `recipient` are present and non-empty; `lifetime`
defaults to 3600 and is not validated at all. -/
def requestKeyRoute (sender recipient : Option String) (lifetime : Option Int)
    (keyId keyB64 : String) (t0 t1 : Int) (s : Store) : ReqResponse × Store :=
  if pyFalsy sender || pyFalsy recipient then
    (ReqResponse.err 400 "sender and recipient are required", s)
  else
    let rs := requestKey (sender.getD "") (recipient.getD "") (lifetime.getD 3600)
      keyId keyB64 t0 t1 s
    (ReqResponse.ok rs.1.key_id rs.1.key_b64 rs.1.expires_at rs.1.algorithm, rs.2)

/-- The seven columns selected by the `/keys` route
(`src/backend/app.py:263-279`); note the absence of `key_b64`. -/
structure ListedKey where
  key_id : String
  sender : String
  recipient : String
  created_at : Int
  expires_at : Int
  status : KeyStatus
  algorithm : String
deriving DecidableEq, Repr

/-- Projection of a stored row to the dict built by the `/keys` route. -/
def toListed (r : KeyRow) : ListedKey :=
  { key_id := r.key_id
    sender := r.sender
    recipient := r.recipient
    created_at := r.created_at
    expires_at := r.expires_at
    status := r.status
    algorithm := r.algorithm }

/-- Insertion step of the `ORDER BY created_at DESC` sort. -/
def insertDesc (r : KeyRow) : List KeyRow → List KeyRow
  | [] => [r]
  | x :: xs => if x.created_at < r.created_at then r :: x :: xs else x :: insertDesc r xs

/-- Sort rows by `created_at` descending (`ORDER BY created_at DESC`). -/
def sortDesc : List KeyRow → List KeyRow
  | [] => []
  | x :: xs => insertDesc x (sortDesc xs)

/-- The `/keys` route (`src/backend/app.py:257-289`): all rows ordered by
`created_at` descending, truncated by the fixed `LIMIT 50`; the route reads
no request parameter — there is no owner filter and no caller-chosen limit. -/
def listKeys (s : Store) : List ListedKey :=
  ((sortDesc s.keys).take 50).map toListed

/-- Modelled from the spec: `ConsumeKey` (spec §4.1) has no implementation
in the provided sources — no route, manager method, or caller mentions it —
so it is modelled from the specification's words: fail with `KeyNotFound`
when the id is absent; report `AlreadyConsumed` for an already-consumed
key; fail with `KeyExpired` for an expired key (a key whose `expires_at`
has passed transitions to `expired`, as in `GetKey`'s lazy expiry); and for
an active, unexpired key set `status=consumed`, `consumed_at=now`, and
append a `CONSUMED` usage-log entry. -/
inductive ConsumeResult
  | ok
  | keyNotFound
  | alreadyConsumed
  | keyExpired
deriving DecidableEq, Repr

/-- Modelled from the spec: the `ConsumeKey(key_id)` operation of §4.1 (see
`ConsumeResult` for what is missing from the sources). -/
def consumeKey (kid : String) (now : Int) (s : Store) : ConsumeResult × Store :=
  match findKey s kid with
  | none => (ConsumeResult.keyNotFound, s)
  | some row =>
    match row.status with
    | KeyStatus.consumed => (ConsumeResult.alreadyConsumed, s)
    | KeyStatus.expired => (ConsumeResult.keyExpired, s)
    | KeyStatus.active =>
      if row.expires_at < now then
        (ConsumeResult.keyExpired, { s with keys := setExpired s.keys kid })
      else
        let entry : LogEntry :=
          { key_id := kid
            action := "CONSUMED"
            timestamp := now
            details := "Key consumed" }
        (ConsumeResult.ok,
          { keys := s.keys.map (fun r =>
              if r.key_id == kid then
                { r with status := KeyStatus.consumed, consumed_at := some now }
              else r)
            log := s.log ++ [entry] })

/-!
Base64 (Python `base64.b64encode` / `b64decode` on the standard alphabet).
Bytes are natural numbers below 256.
-/

/-- Character of the standard base64 alphabet for a 6-bit value. -/
def b64Char (n : Nat) : Char :=
  if n < 26 then Char.ofNat (65 + n)
  else if n < 52 then Char.ofNat (97 + (n - 26))
  else if n < 62 then Char.ofNat (48 + (n - 52))
  else if n = 62 then '+'
  else '/'

/-- Inverse of the base64 alphabet. -/
def b64Val (c : Char) : Option Nat :=
  if 'A' ≤ c ∧ c ≤ 'Z' then some (c.toNat - 65)
  else if 'a' ≤ c ∧ c ≤ 'z' then some (c.toNat - 97 + 26)
  else if '0' ≤ c ∧ c ≤ '9' then some (c.toNat - 48 + 52)
  else if c = '+' then some 62
  else if c = '/' then some 63
  else none

/-- base64-encode a byte list (groups of three bytes, `=`-padded tail). -/
def b64EncodeList : List Nat → List Char
  | a :: b :: c :: rest =>
    b64Char (a / 4) :: b64Char (a % 4 * 16 + b / 16) ::
      b64Char (b % 16 * 4 + c / 64) :: b64Char (c % 64) :: b64EncodeList rest
  | [a, b] => [b64Char (a / 4), b64Char (a % 4 * 16 + b / 16), b64Char (b % 16 * 4), '=']
  | [a] => [b64Char (a / 4), b64Char (a % 4 * 16), '=', '=']
  | [] => []

/-- base64-decode a character list (strict on the padded grouping). -/
def b64DecodeList : List Char → Option (List Nat)
  | c1 :: c2 :: c3 :: c4 :: rest =>
    (b64Val c1).bind fun v1 =>
    (b64Val c2).bind fun v2 =>
    if c3 = '=' then
      if c4 = '=' ∧ rest = [] then some [v1 * 4 + v2 / 16] else none
    else
      (b64Val c3).bind fun v3 =>
      if c4 = '=' then
        if rest = [] then some [v1 * 4 + v2 / 16, v2 % 16 * 16 + v3 / 4] else none
      else
        (b64Val c4).bind fun v4 =>
        (b64DecodeList rest).map fun tail =>
          (v1 * 4 + v2 / 16) :: (v2 % 16 * 16 + v3 / 4) :: (v3 % 4 * 64 + v4) :: tail
  | [] => some []
  | _ => none

/-!
AES-256-GCM as used by PyCryptodome's `AES.new(key, AES.MODE_GCM)` /
`encrypt_and_digest` / `decrypt_and_verify` with no associated data
(`cipher.update` is never called in the sources).  The model is generic over
the keyed block cipher `E : Nat → Nat` (AES-256 under the supplied key,
acting on 128-bit blocks represented as naturals below `2 ^ 128`); GCM uses
the cipher only in the forward direction.  GHASH is implemented over
GF(2^128) with the standard reflected reduction polynomial.
-/

/-- Big-endian integer value of a byte list. -/
def bytesToNat (bs : List Nat) : Nat := bs.foldl (fun a b => a * 256 + b) 0

/-- The sixteen big-endian bytes of a 128-bit block. -/
def bytesOfBlock (n : Nat) : List Nat :=
  (List.range 16).map (fun i => n / 256 ^ (15 - i) % 256)

/-- Increment the low 32 bits of a counter block, wrapping (GCM `inc32`). -/
def inc32 (c : Nat) : Nat := c / 2 ^ 32 * 2 ^ 32 + (c % 2 ^ 32 + 1) % 2 ^ 32

/-- Reduction constant of the GHASH field (the block `11100001 ∥ 0^120`). -/
def gf128R : Nat := 0xE1000000000000000000000000000000

/-- Iteration of the GHASH multiplication: `k` bits of `x` remain, `v` is the
running multiple of the second operand, `z` the accumulator.  Bit `127` of
`x` (its most significant) is processed first. -/
def gf128MulAux : Nat → Nat → Nat → Nat → Nat
  | 0, _, _, z => z
  | k + 1, x, v, z =>
    let z' := if x.testBit k then Nat.xor z v else z
    let v' := if v % 2 = 1 then Nat.xor (v / 2) gf128R else v / 2
    gf128MulAux k x v' z'

/-- Multiplication in GF(2^128) as specified for GHASH. -/
def gf128Mul (x y : Nat) : Nat := gf128MulAux 128 x y 0

/-- GHASH over a list of 128-bit blocks with hash subkey `h`. -/
def ghash (h : Nat) (blocks : List Nat) : Nat :=
  blocks.foldl (fun y b => gf128Mul (Nat.xor y b) h) 0

/-- Fuel-driven 16-byte chunking; the fuel bounds the number of blocks. -/
def blocksOfAux : Nat → List Nat → List Nat
  | 0, _ => []
  | _, [] => []
  | n + 1, b :: rest =>
    bytesToNat ((b :: rest).take 16 ++ List.replicate (16 - ((b :: rest).take 16).length) 0)
      :: blocksOfAux n ((b :: rest).drop 16)

/-- Split a byte list into 128-bit blocks, zero-padding the last block. -/
def blocksOf (bs : List Nat) : List Nat := blocksOfAux bs.length bs

/-- Pre-counter block `J0`: for a 96-bit nonce append `0^31 ∥ 1`, otherwise
GHASH of the zero-padded nonce followed by its 64-bit bit length. -/
def gcmJ0 (h : Nat) (nonce : List Nat) : Nat :=
  if nonce.length = 12 then bytesToNat nonce * 2 ^ 32 + 1
  else ghash h (blocksOf nonce ++ [8 * nonce.length])

/-- Byte stream of `n` successive encrypted counter blocks. -/
def ctrBlocks (E : Nat → Nat) (c : Nat) : Nat → List Nat
  | 0 => []
  | n + 1 => bytesOfBlock (E c) ++ ctrBlocks E (inc32 c) n

/-- GCM keystream: the first `n` bytes of the counter stream starting at
`inc32 J0`. -/
def gcmKeystream (E : Nat → Nat) (j0 : Nat) (n : Nat) : List Nat :=
  (ctrBlocks E (inc32 j0) ((n + 15) / 16)).take n

/-- GCM authentication tag over ciphertext `ct` (associated data empty):
`E(J0) ⊕ GHASH(H, pad(ct) ∥ len64(AD) ∥ len64(ct))`. -/
def gcmTag (E : Nat → Nat) (h j0 : Nat) (ct : List Nat) : List Nat :=
  bytesOfBlock (Nat.xor (E j0) (ghash h (blocksOf ct ++ [8 * ct.length])))

/-- GCM encryption: ciphertext and 16-byte tag. -/
def gcmEncrypt (E : Nat → Nat) (nonce pt : List Nat) : List Nat × List Nat :=
  let h := E 0
  let j0 := gcmJ0 h nonce
  let ct := List.zipWith Nat.xor pt (gcmKeystream E j0 pt.length)
  (ct, gcmTag E h j0 ct)

/-- GCM decryption with tag verification (`decrypt_and_verify`): `none` when
the recomputed tag differs. -/
def gcmDecrypt (E : Nat → Nat) (nonce ct tag : List Nat) : Option (List Nat) :=
  let h := E 0
  let j0 := gcmJ0 h nonce
  if gcmTag E h j0 ct = tag then
    some (List.zipWith Nat.xor ct (gcmKeystream E j0 ct.length))
  else none

/-- Return value of `encrypt_message` (`src/send_email.py:89-103`): the
base64-encoded ciphertext, nonce and tag. -/
structure EncDict where
  ciphertext : String
  nonce : String
  tag : String
deriving DecidableEq, Repr

/-- encrypt_message (`src/send_email.py:89-103`): AES-256-GCM under the
decoded key (here the block cipher `E`), with the nonce PyCryptodome drew
for this call passed in as `nonceBytes`, and each output base64-encoded. -/
def encrypt_message (E : Nat → Nat) (nonceBytes pt : List Nat) : EncDict :=
  { ciphertext := String.mk (b64EncodeList (gcmEncrypt E nonceBytes pt).1)
    nonce := String.mk (b64EncodeList nonceBytes)
    tag := String.mk (b64EncodeList (gcmEncrypt E nonceBytes pt).2) }

/-- decrypt_message (`src/recv_email.py:86-99`): base64-decode the three
fields and run AES-256-GCM `decrypt_and_verify` under the same key. -/
def decrypt_message (E : Nat → Nat) (ctB64 nonceB64 tagB64 : String) : Option (List Nat) :=
  (b64DecodeList ctB64.data).bind fun ct =>
  (b64DecodeList nonceB64.data).bind fun nonce =>
  (b64DecodeList tagB64.data).bind fun tag =>
  gcmDecrypt E nonce ct tag

/-!
Envelope wire format (`src/send_email.py:128-156`, `src/recv_email.py:112-127`).
The sender serialises the payload record with `json.dumps(..., indent=2)` and
embeds it between sentinel lines; the receiver extracts the block with a
regular expression and parses it with `json.loads`.  `json.dumps`/`json.loads`
are modelled on the fragment the envelope uses — flat objects whose keys and
values are strings containing no character that `dumps` escapes (no quote, no
backslash, no control character); the `safeStr` hypotheses of the round-trip
theorem restrict it to that fragment.
-/

/-- Opening brace character. -/
def lbrace : Char := Char.ofNat 123

/-- Closing brace character. -/
def rbrace : Char := Char.ofNat 125

/-- The encrypted payload record built by `send_encrypted_email`
(`src/send_email.py:129-137`), in the field order the source inserts. -/
structure Payload where
  version : String
  algorithm : String
  key_id : String
  ciphertext : String
  nonce : String
  tag : String
  timestamp : String
deriving DecidableEq, Repr

/-- Characters `json.dumps` emits verbatim and `strip`/the sentinel search
treat as ordinary text: not a quote, not a backslash, not a control
character. -/
def jsonSafeChar (c : Char) : Bool :=
  c != '"' && c != '\\' && decide (32 ≤ c.toNat)

/-- Every character of the string is `jsonSafeChar`. -/
def safeStr (s : String) : Prop := ∀ c ∈ s.data, jsonSafeChar c = true

/-- All seven payload fields are safe strings. -/
def payloadSafe (p : Payload) : Prop :=
  safeStr p.version ∧ safeStr p.algorithm ∧ safeStr p.key_id ∧ safeStr p.ciphertext ∧
    safeStr p.nonce ∧ safeStr p.tag ∧ safeStr p.timestamp

/-- JSON string literal (escape-free fragment, see the section comment). -/
def jsonStr (s : List Char) : List Char := '"' :: s ++ ['"']

/-- One `  "key": "value"` line of `json.dumps(..., indent=2)`. -/
def pairLine (k v : String) : List Char :=
  ' ' :: ' ' :: '"' :: (k.data ++ '"' :: ':' :: ' ' :: '"' :: (v.data ++ ['"']))

/-- The `",\n"`-separated item lines of `json.dumps(..., indent=2)`. -/
def dumpsPairs : List (String × String) → List Char
  | [] => []
  | [(k, v)] => pairLine k v
  | (k, v) :: rest => pairLine k v ++ ',' :: '\n' :: dumpsPairs rest

/-- `json.dumps` of a flat string object with `indent=2`. -/
def dumpsObj (ps : List (String × String)) : List Char :=
  lbrace :: '\n' :: dumpsPairs ps ++ '\n' :: rbrace :: []

/-- The payload's key/value pairs in the insertion order of
`src/send_email.py:129-137`. -/
def payloadPairs (p : Payload) : List (String × String) :=
  [("version", p.version), ("algorithm", p.algorithm), ("key_id", p.key_id),
    ("ciphertext", p.ciphertext), ("nonce", p.nonce), ("tag", p.tag),
    ("timestamp", p.timestamp)]

/-- `json.dumps(encrypted_payload, indent=2)` (`src/send_email.py:149`). -/
def dumpsPayload (p : Payload) : List Char := dumpsObj (payloadPairs p)

/-- JSON whitespace (also the whitespace `strip` and the `\s` class match on
the bodies at hand). -/
def isJsonWs (c : Char) : Bool := c = ' ' || c = '\n' || c = '\t' || c = '\r'

/-- Drop leading whitespace. -/
def skipWs (l : List Char) : List Char := l.dropWhile isJsonWs

/-- Parse the remainder of a JSON string literal after its opening quote
(escape-free fragment): the content up to the closing quote, and the rest. -/
def parseJStringBody : List Char → Option (List Char × List Char)
  | [] => none
  | c :: rest =>
    if c = '"' then some ([], rest)
    else (parseJStringBody rest).map fun pr => (c :: pr.1, pr.2)

/-- Parse a JSON string literal. -/
def parseJString (l : List Char) : Option (List Char × List Char) :=
  if l.head? = some '"' then parseJStringBody l.tail else none

/-- Expect a colon. -/
def expectColon (l : List Char) : Option (List Char) :=
  if l.head? = some ':' then some l.tail else none

/-- Parse `"k": "v"` members separated by commas; the fuel bounds the number
of members.  Returns the members and the unconsumed rest. -/
def parsePairsAux : Nat → List Char → Option (List (List Char × List Char) × List Char)
  | 0, _ => none
  | fuel + 1, l =>
    (parseJString (skipWs l)).bind fun kr =>
    (expectColon (skipWs kr.2)).bind fun r2 =>
    (parseJString (skipWs r2)).bind fun vr =>
    let r := skipWs vr.2
    if r.head? = some ',' then
      (parsePairsAux fuel r.tail).map fun pr => ((kr.1, vr.1) :: pr.1, pr.2)
    else some ([(kr.1, vr.1)], r)

/-- `json.loads` on a flat object of string fields (the only shape the
envelope carries): the key/value pairs in document order. -/
def parseObj (l : List Char) : Option (List (List Char × List Char)) :=
  let l1 := skipWs l
  if l1.head? = some lbrace then
    (parsePairsAux (l1.tail.length + 1) l1.tail).bind fun pr =>
    let r := skipWs pr.2
    if r.head? = some rbrace then
      if (skipWs r.tail).isEmpty then some pr.1 else none
    else none
  else none

/-- Index of the first occurrence of `pat` in the list, if any. -/
def findSub (pat : List Char) : List Char → Option Nat
  | [] => if pat.isPrefixOf ([] : List Char) then some 0 else none
  | c :: rest =>
    if pat.isPrefixOf (c :: rest) then some 0 else (findSub pat rest).map (· + 1)

/-- Leading whitespace run. -/
def wsRun (l : List Char) : List Char := l.takeWhile isJsonWs

/-- Index of the last newline in the list, if any. -/
def lastNlIdx : List Char → Option Nat
  | [] => none
  | c :: rest =>
    match lastNlIdx rest with
    | some i => some (i + 1)
    | none => if c = '\n' then some 0 else none

/-- Python `str.strip()` on the whitespace the bodies contain. -/
def stripChars (l : List Char) : List Char :=
  ((l.dropWhile isJsonWs).reverse.dropWhile isJsonWs).reverse

/-- The opening sentinel line. -/
def startMarker : List Char := "--- ENCRYPTED PAYLOAD ---".data

/-- Newline followed by the closing sentinel line (the `\n--- END ...` the
non-greedy group stops at). -/
def endMarkerNl : List Char := '\n' :: "--- END ENCRYPTED PAYLOAD ---".data

/-- The sentinel extraction of `extract_encrypted_payload`
(`src/recv_email.py:112-127`): the regex
`--- ENCRYPTED PAYLOAD ---\s*\n(.*?)\n--- END ENCRYPTED PAYLOAD ---` with
`re.DOTALL`, specialised to its backtracking behaviour — the match starts at
the first occurrence of the opening sentinel, `\s*\n` greedily ends at the
last newline of the following whitespace run, and the non-greedy group stops
at the first occurrence of the closing sentinel — followed by
`.strip()` of the captured group. -/
def extractPayloadText (body : List Char) : Option (List Char) :=
  (findSub startMarker body).bind fun i =>
  let afterM := body.drop (i + startMarker.length)
  (lastNlIdx (wsRun afterM)).bind fun j =>
  let content := afterM.drop (j + 1)
  (findSub endMarkerNl content).bind fun e =>
  some (stripChars (content.take e))

/-- extract_encrypted_payload (`src/recv_email.py:112-127`): sentinel
extraction followed by `json.loads` of the stripped block. -/
def extract_encrypted_payload (body : List Char) :
    Option (List (List Char × List Char)) :=
  (extractPayloadText body).bind parseObj

/-- The fixed text of the sender's email body before the opening sentinel,
with the two interpolations (`key_id` and the `strftime` timestamp `ts2`)
of `src/send_email.py:140-147`. -/
def bodyPre (key_id ts2 : String) : List Char :=
  ("This message was encrypted using QuMail quantum-secure encryption.\n\nTo decrypt this message, you need QuMail client software and access to the QKD key.\n\nKey ID: ").data
    ++ key_id.data
    ++ ("\nAlgorithm: AES-256-GCM\nEncrypted at: ").data
    ++ ts2.data
    ++ (" UTC\n\n").data

/-- The fixed text of the sender's email body after the closing sentinel
(`src/send_email.py:150-154`). -/
def bodyPost : List Char :=
  ("\n\nQuMail - Quantum-Secure Email Communication\nhttps://github.com/qumail/qumail\n").data

/-- The full email body built by `send_encrypted_email`
(`src/send_email.py:140-154`). -/
def emailBodyOf (key_id ts2 : String) (p : Payload) : List Char :=
  bodyPre key_id ts2 ++ startMarker ++ '\n' :: dumpsPayload p ++ endMarkerNl ++ bodyPost

/-- The receiver's use of an extracted payload
(`src/recv_email.py:219-226`): `decrypt_message` is called on the
`ciphertext`, `nonce` and `tag` fields only — no other payload field reaches
the decryption. -/
def decrypt_qumail_payload (E : Nat → Nat) (p : Payload) : Option (List Nat) :=
  decrypt_message E p.ciphertext p.nonce p.tag

/-!
Concrete instances used by the closed theorems below.
-/

/-- An empty store. -/
def emptyStore : Store := { keys := [], log := [] }

/-- A store holding one active key whose material is the base64 string
`U0VDUkVU`. -/
def oneKeyStore : Store :=
  { keys := [{ key_id := "k1"
               key_b64 := "U0VDUkVU"
               sender := "a@x"
               recipient := "b@x"
               created_at := 0
               expires_at := 100
               status := KeyStatus.active
               algorithm := "AES-256-GCM"
               consumed_at := none }]
    log := [] }

/-- The store produced by requesting a key with lifetime 100 at clock reads
`t0 = t1 = 0` (so `expires_at = 100`). -/
def requestedStore : Store :=
  (requestKey "a@x" "b@x" 100 "k" "KB" 0 0 emptyStore).2

/-- A store holding keys of two different owners. -/
def twoOwnerStore : Store :=
  { keys := [{ key_id := "k1"
               key_b64 := "S0Ix"
               sender := "a@x"
               recipient := "b@x"
               created_at := 1
               expires_at := 100
               status := KeyStatus.active
               algorithm := "AES-256-GCM"
               consumed_at := none },
             { key_id := "k2"
               key_b64 := "S0Iy"
               sender := "c@y"
               recipient := "d@y"
               created_at := 2
               expires_at := 100
               status := KeyStatus.active
               algorithm := "AES-256-GCM"
               consumed_at := none }]
    log := [] }

/-- A 16-byte nonce (PyCryptodome's default GCM nonce length). -/
def exNonce : List Nat := [1, 2, 3, 4, 5, 6, 7, 8, 9, 10, 11, 12, 13, 14, 15, 16]

/-- A valid envelope for the two-byte message `[72, 105]` under the block
cipher `fun b => b + 1`, except that its protocol-version tag has been
corrupted from `1.0` to `9.9`; ciphertext, nonce and tag are the genuine
outputs of `encrypt_message`. -/
def corruptedVersionPayload : Payload :=
  { version := "9.9"
    algorithm := "AES-256-GCM"
    key_id := "qkd_x"
    ciphertext := (encrypt_message (fun b => b + 1) exNonce [72, 105]).ciphertext
    nonce := (encrypt_message (fun b => b + 1) exNonce [72, 105]).nonce
    tag := (encrypt_message (fun b => b + 1) exNonce [72, 105]).tag
    timestamp := "2025-10-12T00:00:00Z" }

/-- A concrete payload record with base64-alphabet field values. -/
def examplePayload : Payload :=
  { version := "1.0"
    algorithm := "AES-256-GCM"
    key_id := "qkd_ab12"
    ciphertext := "U2VjcmV0"
    nonce := "AAECAw=="
    tag := "dGFn"
    timestamp := "2025-10-12T00:00:00Z" }

/-!
Round-trip lemmas for the base64 and GCM layers.
-/

theorem b64Val_b64Char_fin : ∀ n : Fin 64, b64Val (b64Char n.val) = some n.val := by decide

theorem b64Char_ne_pad_fin : ∀ n : Fin 64, b64Char n.val ≠ '=' := by decide

theorem b64Val_b64Char (n : Nat) (h : n < 64) : b64Val (b64Char n) = some n :=
  b64Val_b64Char_fin ⟨n, h⟩

theorem b64Char_ne_pad (n : Nat) (h : n < 64) : b64Char n ≠ '=' :=
  b64Char_ne_pad_fin ⟨n, h⟩

theorem b64_roundtrip : ∀ bs : List Nat, (∀ b ∈ bs, b < 256) →
    b64DecodeList (b64EncodeList bs) = some bs
  | [], _ => rfl
  | [a], h => by
    have ha : a < 256 := h a (by simp)
    simp only [b64EncodeList, b64DecodeList]
    rw [b64Val_b64Char _ (by omega), b64Val_b64Char _ (by omega)]
    simp
    omega
  | [a, b], h => by
    have ha : a < 256 := h a (by simp)
    have hb : b < 256 := h b (by simp)
    simp only [b64EncodeList, b64DecodeList]
    rw [b64Val_b64Char _ (by omega), b64Val_b64Char _ (by omega)]
    simp only [Option.some_bind]
    rw [if_neg (b64Char_ne_pad _ (by omega))]
    rw [b64Val_b64Char _ (by omega)]
    simp
    omega
  | a :: b :: c :: rest, h => by
    have ha : a < 256 := h a (by simp)
    have hb : b < 256 := h b (by simp)
    have hc : c < 256 := h c (by simp)
    have hrest := b64_roundtrip rest (fun x hx => h x (by simp [hx]))
    simp only [b64EncodeList, b64DecodeList]
    rw [b64Val_b64Char _ (by omega), b64Val_b64Char _ (by omega)]
    simp only [Option.some_bind]
    rw [if_neg (b64Char_ne_pad _ (by omega))]
    rw [b64Val_b64Char _ (by omega)]
    simp only [Option.some_bind]
    rw [if_neg (b64Char_ne_pad _ (by omega))]
    rw [b64Val_b64Char _ (by omega)]
    simp [hrest]
    omega

theorem zipWith_xor_cancel : ∀ l m : List Nat, l.length ≤ m.length →
    List.zipWith Nat.xor (List.zipWith Nat.xor l m) m = l
  | [], _, _ => by simp
  | a :: l, [], h => by simp at h
  | a :: l, b :: m, h => by
    simp only [List.zipWith]
    rw [zipWith_xor_cancel l m (by simpa using h)]
    have hx : Nat.xor (Nat.xor a b) b = a := Nat.xor_cancel_right b a
    rw [hx]

theorem length_ctrBlocks (E : Nat → Nat) : ∀ (n : Nat) (c : Nat),
    (ctrBlocks E c n).length = 16 * n
  | 0, _ => rfl
  | n + 1, c => by
    simp only [ctrBlocks, List.length_append, length_ctrBlocks E n, bytesOfBlock,
      List.length_map, List.length_range]
    omega

theorem length_gcmKeystream (E : Nat → Nat) (j0 n : Nat) :
    (gcmKeystream E j0 n).length = n := by
  simp only [gcmKeystream, List.length_take, length_ctrBlocks]
  omega

theorem gcm_roundtrip (E : Nat → Nat) (nonce pt : List Nat) :
    gcmDecrypt E nonce (gcmEncrypt E nonce pt).1 (gcmEncrypt E nonce pt).2 = some pt := by
  have hks := length_gcmKeystream E (gcmJ0 (E 0) nonce) pt.length
  have hct : (List.zipWith Nat.xor pt (gcmKeystream E (gcmJ0 (E 0) nonce) pt.length)).length
      = pt.length := by
    rw [List.length_zipWith, hks, Nat.min_self]
  unfold gcmEncrypt gcmDecrypt
  simp only [hct, if_pos rfl]
  exact congrArg some (zipWith_xor_cancel pt _ (le_of_eq hks.symm))

theorem mem_bytesOfBlock_lt (n : Nat) : ∀ b ∈ bytesOfBlock n, b < 256 := by
  intro b hb
  simp only [bytesOfBlock, List.mem_map] at hb
  obtain ⟨i, _, rfl⟩ := hb
  exact Nat.mod_lt _ (by omega)

theorem mem_ctrBlocks_lt (E : Nat → Nat) : ∀ (n c : Nat), ∀ b ∈ ctrBlocks E c n, b < 256
  | 0, _, b, hb => by simp [ctrBlocks] at hb
  | n + 1, c, b, hb => by
    simp only [ctrBlocks, List.mem_append] at hb
    rcases hb with hb | hb
    · exact mem_bytesOfBlock_lt _ b hb
    · exact mem_ctrBlocks_lt E n (inc32 c) b hb

theorem mem_gcmKeystream_lt (E : Nat → Nat) (j0 n : Nat) :
    ∀ b ∈ gcmKeystream E j0 n, b < 256 := by
  intro b hb
  exact mem_ctrBlocks_lt E _ _ b (List.mem_of_mem_take hb)

theorem mem_zipWith_xor_lt : ∀ l m : List Nat, (∀ b ∈ l, b < 256) → (∀ b ∈ m, b < 256) →
    ∀ b ∈ List.zipWith Nat.xor l m, b < 256
  | [], _, _, _, b, hb => by simp at hb
  | _ :: _, [], _, _, b, hb => by simp at hb
  | x :: l, y :: m, hl, hm, b, hb => by
    simp only [List.zipWith, List.mem_cons] at hb
    rcases hb with rfl | hb
    · have h1 : x < 2 ^ 8 := hl x (by simp)
      have h2 : y < 2 ^ 8 := hm y (by simp)
      exact Nat.xor_lt_two_pow h1 h2
    · exact mem_zipWith_xor_lt l m (fun u hu => hl u (by simp [hu]))
        (fun u hu => hm u (by simp [hu])) b hb

theorem data_mk (l : List Char) : (String.mk l).data = l := rfl

theorem gcmEncrypt_fst_lt (E : Nat → Nat) (nonce pt : List Nat) (hpt : ∀ b ∈ pt, b < 256) :
    ∀ b ∈ (gcmEncrypt E nonce pt).1, b < 256 := by
  intro b hb
  unfold gcmEncrypt at hb
  simp only at hb
  exact mem_zipWith_xor_lt pt _ hpt (mem_gcmKeystream_lt E _ _) b hb

theorem gcmEncrypt_snd_lt (E : Nat → Nat) (nonce pt : List Nat) :
    ∀ b ∈ (gcmEncrypt E nonce pt).2, b < 256 := by
  intro b hb
  unfold gcmEncrypt gcmTag at hb
  simp only at hb
  exact mem_bytesOfBlock_lt _ b hb

/-- C3: for every byte sequence `pt` (including the empty one), every nonce,
and every keyed block cipher `E` (AES-256 under a valid key), decrypting the
`(ciphertext, nonce, tag)` produced by `encrypt_message` with the same key,
nonce and tag succeeds and returns exactly `pt`. -/
theorem encrypt_decrypt_roundtrip (E : Nat → Nat) (nonce pt : List Nat)
    (hpt : ∀ b ∈ pt, b < 256) (hn : ∀ b ∈ nonce, b < 256) :
    decrypt_message E (encrypt_message E nonce pt).ciphertext
      (encrypt_message E nonce pt).nonce (encrypt_message E nonce pt).tag = some pt := by
  unfold encrypt_message decrypt_message
  simp only [data_mk]
  rw [b64_roundtrip _ (gcmEncrypt_fst_lt E nonce pt hpt), b64_roundtrip _ hn,
    b64_roundtrip _ (gcmEncrypt_snd_lt E nonce pt)]
  simp only [Option.some_bind]
  exact gcm_roundtrip E nonce pt

/-- Witness for C3: the round-trip theorem applied at a concrete message,
16-byte nonce (PyCryptodome's default nonce size) and block cipher. -/
theorem encrypt_decrypt_roundtrip_witness :
    (∀ b ∈ [72, 105, 33], b < 256) ∧
    (∀ b ∈ [1, 2, 3, 4, 5, 6, 7, 8, 9, 10, 11, 12, 13, 14, 15, 16], b < 256) ∧
    decrypt_message (fun b => b + 1)
      (encrypt_message (fun b => b + 1)
        [1, 2, 3, 4, 5, 6, 7, 8, 9, 10, 11, 12, 13, 14, 15, 16] [72, 105, 33]).ciphertext
      (encrypt_message (fun b => b + 1)
        [1, 2, 3, 4, 5, 6, 7, 8, 9, 10, 11, 12, 13, 14, 15, 16] [72, 105, 33]).nonce
      (encrypt_message (fun b => b + 1)
        [1, 2, 3, 4, 5, 6, 7, 8, 9, 10, 11, 12, 13, 14, 15, 16] [72, 105, 33]).tag
      = some [72, 105, 33] :=
  ⟨by decide, by decide,
    encrypt_decrypt_roundtrip (fun b => b + 1)
      [1, 2, 3, 4, 5, 6, 7, 8, 9, 10, 11, 12, 13, 14, 15, 16] [72, 105, 33]
      (by decide) (by decide)⟩

/-!
Lemmas for the envelope wire format.
-/

theorem parseJStringBody_append (s : List Char) : ∀ (rest : List Char),
    (∀ c ∈ s, jsonSafeChar c = true) →
    parseJStringBody (s ++ '"' :: rest) = some (s, rest) := by
  induction s with
  | nil =>
    intro rest h
    simp [parseJStringBody]
  | cons c s ih =>
    intro rest h
    have hc : jsonSafeChar c = true := h c (by simp)
    have hcq : ¬(c = '"') := by
      intro hEq
      subst hEq
      simp [jsonSafeChar] at hc
    simp only [List.cons_append, parseJStringBody, if_neg hcq, List.append_eq]
    rw [ih rest (fun u hu => h u (by simp [hu]))]
    simp

theorem parseJString_quoted (s T : List Char) (h : ∀ c ∈ s, jsonSafeChar c = true) :
    parseJString ('"' :: (s ++ '"' :: T)) = some (s, T) := by
  unfold parseJString
  simp only [List.head?_cons, List.tail_cons]
  simp only [if_true]
  exact parseJStringBody_append s T h

theorem skipWs_cons_ws (c : Char) (l : List Char) (hc : isJsonWs c = true) :
    skipWs (c :: l) = skipWs l := by
  simp [skipWs, List.dropWhile_cons, hc]

theorem skipWs_cons_not (c : Char) (l : List Char) (hc : isJsonWs c = false) :
    skipWs (c :: l) = c :: l := by
  simp [skipWs, List.dropWhile_cons, hc]

theorem parsePairsAux_ws (fuel : Nat) (c : Char) (l : List Char) (hc : isJsonWs c = true) :
    parsePairsAux (fuel + 1) (c :: l) = parsePairsAux (fuel + 1) l := by
  simp only [parsePairsAux, skipWs_cons_ws c l hc]

theorem pairLine_append (k v : String) (tail : List Char) :
    pairLine k v ++ tail
      = ' ' :: ' ' :: '"' :: (k.data ++ '"' :: ':' :: ' ' :: '"' :: (v.data ++ '"' :: tail)) := by
  simp [pairLine, List.cons_append, List.append_assoc]

theorem parsePairsAux_dumps : ∀ (ps : List (String × String)) (fuel : Nat) (rest : List Char),
    (∀ kv ∈ ps, safeStr kv.1 ∧ safeStr kv.2) → ps.length ≤ fuel → ps ≠ [] →
    parsePairsAux fuel (dumpsPairs ps ++ '\n' :: rbrace :: rest)
      = some (ps.map (fun kv => (kv.1.data, kv.2.data)), rbrace :: rest) := by
  intro ps
  induction ps with
  | nil =>
    intro fuel rest _ _ hne
    exact absurd rfl hne
  | cons p ps ih =>
    intro fuel rest hsafe hlen _
    obtain ⟨k, v⟩ := p
    have hk : safeStr k ∧ safeStr v := hsafe (k, v) (by simp)
    cases fuel with
    | zero => simp at hlen
    | succ n =>
      cases ps with
      | nil =>
        simp only [dumpsPairs, pairLine_append, parsePairsAux]
        rw [skipWs_cons_ws ' ' _ (by decide), skipWs_cons_ws ' ' _ (by decide),
          skipWs_cons_not '"' _ (by decide)]
        rw [parseJString_quoted k.data _ hk.1]
        simp only [Option.some_bind]
        rw [skipWs_cons_not ':' _ (by decide)]
        simp only [expectColon, List.head?_cons, List.tail_cons, if_true, Option.some_bind]
        rw [skipWs_cons_ws ' ' _ (by decide), skipWs_cons_not '"' _ (by decide)]
        rw [parseJString_quoted v.data _ hk.2]
        simp only [Option.some_bind]
        rw [skipWs_cons_ws '\n' _ (by decide), skipWs_cons_not rbrace _ (by decide)]
        simp only [List.head?_cons]
        rw [if_neg (by decide : ¬(some rbrace = some (',' : Char)))]
        simp
      | cons q tl =>
        simp only [dumpsPairs, List.append_assoc, List.cons_append, pairLine_append,
          parsePairsAux]
        rw [skipWs_cons_ws ' ' _ (by decide), skipWs_cons_ws ' ' _ (by decide),
          skipWs_cons_not '"' _ (by decide)]
        rw [parseJString_quoted k.data _ hk.1]
        simp only [Option.some_bind]
        rw [skipWs_cons_not ':' _ (by decide)]
        simp only [expectColon, List.head?_cons, List.tail_cons, if_true, Option.some_bind]
        rw [skipWs_cons_ws ' ' _ (by decide), skipWs_cons_not '"' _ (by decide)]
        rw [parseJString_quoted v.data _ hk.2]
        simp only [Option.some_bind]
        rw [skipWs_cons_not ',' _ (by decide)]
        rw [if_pos (by simp :
          ((',' :: '\n' :: (dumpsPairs (q :: tl) ++ '\n' :: rbrace :: rest)).head?
            = some ','))]
        simp only [List.tail_cons]
        cases n with
        | zero => simp at hlen
        | succ m =>
          rw [parsePairsAux_ws m '\n' _ (by decide)]
          rw [ih (m + 1) rest (fun kv hkv => hsafe kv (by simp [hkv])) (by
            simp only [List.length_cons] at hlen ⊢
            omega) (by simp)]
          simp

theorem length_pairLine (k v : String) :
    (pairLine k v).length = k.data.length + v.data.length + 8 := by
  simp [pairLine]
  omega

theorem length_dumpsPairs_ge : ∀ ps : List (String × String), ps.length ≤ (dumpsPairs ps).length
  | [] => by simp [dumpsPairs]
  | [(k, v)] => by
    simp [dumpsPairs, length_pairLine]
  | (k, v) :: q :: tl => by
    have hrec := length_dumpsPairs_ge (q :: tl)
    simp only [dumpsPairs, List.length_append, List.length_cons, length_pairLine] at *
    omega

theorem parseObj_dumpsObj (ps : List (String × String))
    (hs : ∀ kv ∈ ps, safeStr kv.1 ∧ safeStr kv.2) (hne : ps ≠ []) :
    parseObj (dumpsObj ps) = some (ps.map fun kv => (kv.1.data, kv.2.data)) := by
  have hge := length_dumpsPairs_ge ps
  unfold parseObj dumpsObj
  rw [List.cons_append, skipWs_cons_not lbrace _ (by decide)]
  simp only [List.head?_cons, List.tail_cons, if_true, List.length_cons, List.cons_append]
  rw [parsePairsAux_ws _ '\n' _ (by decide)]
  rw [parsePairsAux_dumps ps _ [] hs (by
    simp [List.length_append]
    omega) hne]
  simp only [Option.some_bind]
  rw [skipWs_cons_not rbrace _ (by decide)]
  simp only [List.head?_cons, List.tail_cons, if_true]
  simp [skipWs]

theorem stripChars_ends (c c' : Char) (l : List Char)
    (hc : isJsonWs c = false) (hc' : isJsonWs c' = false) :
    stripChars (c :: (l ++ [c'])) = c :: (l ++ [c']) := by
  have h1 : List.dropWhile isJsonWs (c :: (l ++ [c'])) = c :: (l ++ [c']) := by
    rw [List.dropWhile_cons, hc]
    simp
  have h2 : (c :: (l ++ [c'])).reverse = c' :: (l.reverse ++ [c]) := by
    simp
  unfold stripChars
  rw [h1, h2, List.dropWhile_cons, hc']
  simp

theorem payloadPairs_safe (p : Payload) (h : payloadSafe p) :
    ∀ kv ∈ payloadPairs p, safeStr kv.1 ∧ safeStr kv.2 := by
  obtain ⟨h1, h2, h3, h4, h5, h6, h7⟩ := h
  intro kv hkv
  simp only [payloadPairs, List.mem_cons, List.not_mem_nil, or_false] at hkv
  rcases hkv with rfl | rfl | rfl | rfl | rfl | rfl | rfl
  · refine ⟨?_, h1⟩
    show safeStr "version"
    unfold safeStr
    decide
  · refine ⟨?_, h2⟩
    show safeStr "algorithm"
    unfold safeStr
    decide
  · refine ⟨?_, h3⟩
    show safeStr "key_id"
    unfold safeStr
    decide
  · refine ⟨?_, h4⟩
    show safeStr "ciphertext"
    unfold safeStr
    decide
  · refine ⟨?_, h5⟩
    show safeStr "nonce"
    unfold safeStr
    decide
  · refine ⟨?_, h6⟩
    show safeStr "tag"
    unfold safeStr
    decide
  · refine ⟨?_, h7⟩
    show safeStr "timestamp"
    unfold safeStr
    decide

set_option maxHeartbeats 2000000 in
/-- C8: the envelope wire-format round-trip.  For every payload record whose
fields contain only characters `json.dumps` emits verbatim, if the sender's
email body locates the sentinels where `send_encrypted_email` places them
(the first occurrence of the opening sentinel is the genuine one, and the
first occurrence of the closing sentinel after the payload is the genuine
one — both are decidable side conditions on the concrete body), then the
receiver's `extract_encrypted_payload` recovers every field of the record
byte-identically, in order. -/
theorem envelope_roundtrip (key_id ts2 : String) (p : Payload)
    (hsafe : payloadSafe p)
    (hstart : findSub startMarker (emailBodyOf key_id ts2 p)
      = some (bodyPre key_id ts2).length)
    (hend : findSub endMarkerNl (dumpsPayload p ++ endMarkerNl ++ bodyPost)
      = some (dumpsPayload p).length) :
    extract_encrypted_payload (emailBodyOf key_id ts2 p)
      = some ((payloadPairs p).map fun kv => (kv.1.data, kv.2.data)) := by
  unfold extract_encrypted_payload extractPayloadText
  rw [hstart]
  simp only [Option.some_bind]
  have hb : emailBodyOf key_id ts2 p
      = (bodyPre key_id ts2 ++ startMarker)
        ++ ('\n' :: (dumpsPayload p ++ endMarkerNl ++ bodyPost)) := by
    simp [emailBodyOf, List.append_assoc, List.cons_append]
  rw [hb, List.drop_left' (by simp [List.length_append])]
  have hws : wsRun ('\n' :: (dumpsPayload p ++ endMarkerNl ++ bodyPost)) = ['\n'] := by
    unfold wsRun dumpsPayload dumpsObj
    rw [List.takeWhile_cons]
    simp only [(by decide : isJsonWs '\n' = true), if_true, List.cons_append,
      List.takeWhile_cons, (by decide : isJsonWs lbrace = false)]
    rfl
  rw [hws, (by decide : lastNlIdx ['\n'] = some 0)]
  simp only [Option.some_bind, List.drop_succ_cons, List.drop_zero]
  rw [hend]
  simp only [Option.some_bind, List.append_assoc]
  rw [List.take_left' rfl]
  have hshape : dumpsPayload p
      = lbrace :: ((('\n' :: dumpsPairs (payloadPairs p)) ++ ['\n']) ++ [rbrace]) := by
    simp [dumpsPayload, dumpsObj, List.append_assoc, List.cons_append]
  rw [hshape, stripChars_ends lbrace rbrace _ (by decide) (by decide), ← hshape]
  exact parseObj_dumpsObj (payloadPairs p) (payloadPairs_safe p hsafe) (by simp [payloadPairs])

set_option maxRecDepth 1000000 in
/-- Witness for C8: the round-trip theorem applied to a concrete payload
embedded in a concrete body, with each side condition decided. -/
theorem envelope_roundtrip_witness :
    payloadSafe examplePayload ∧
    findSub startMarker (emailBodyOf "qkd_ab12" "2025-10-12 00:00:00" examplePayload)
      = some (bodyPre "qkd_ab12" "2025-10-12 00:00:00").length ∧
    findSub endMarkerNl (dumpsPayload examplePayload ++ endMarkerNl ++ bodyPost)
      = some (dumpsPayload examplePayload).length ∧
    extract_encrypted_payload (emailBodyOf "qkd_ab12" "2025-10-12 00:00:00" examplePayload)
      = some ((payloadPairs examplePayload).map fun kv => (kv.1.data, kv.2.data)) :=
  ⟨by unfold payloadSafe safeStr; decide,
   by decide,
   by decide,
   envelope_roundtrip "qkd_ab12" "2025-10-12 00:00:00" examplePayload
     (by unfold payloadSafe safeStr; decide) (by decide) (by decide)⟩


/-!
Lemmas for the key-manager state machine.
-/

theorem find?_map_keyid (f : KeyRow → KeyRow) (hf : ∀ r, (f r).key_id = r.key_id)
    (kid : String) : ∀ l : List KeyRow,
    (l.map f).find? (fun r => r.key_id == kid) = (l.find? (fun r => r.key_id == kid)).map f := by
  intro l
  induction l with
  | nil => rfl
  | cons r l ih =>
    simp only [List.map_cons, List.find?_cons]
    rw [hf r]
    cases hr : (r.key_id == kid) with
    | true => simp
    | false => simpa using ih

theorem findKey_setExpired (s : Store) (kid : String) :
    (setExpired s.keys kid).find? (fun r => r.key_id == kid)
      = (findKey s kid).map fun r =>
          if r.key_id == kid then { r with status := KeyStatus.expired } else r := by
  unfold setExpired findKey
  exact find?_map_keyid _ (by
    intro r
    by_cases h : (r.key_id == kid) = true <;> simp [h]) kid s.keys

/-- C10: `GetKey` on an absent key id performs no writes: the manager
returns `None` with the store unchanged (no key row touched, no
`KEY_ACCESSED` log entry appended), and the route answers 404 with the
store unchanged. -/
theorem getKey_notFound (kid : String) (now tAcc : Int) (s : Store)
    (h : findKey s kid = none) :
    getKey kid now tAcc s = (none, s) ∧
    getKeyRoute kid now tAcc s = (KeyResponse.err 404 "Key not found", s) := by
  have h1 : getKey kid now tAcc s = (none, s) := by
    unfold getKey
    rw [h]
  refine ⟨h1, ?_⟩
  unfold getKeyRoute
  rw [h1]

/-- Witness for C10 at a concrete absent id on a concrete store. -/
theorem getKey_notFound_witness :
    findKey oneKeyStore "missing" = none ∧
    (getKey "missing" 7 8 oneKeyStore = (none, oneKeyStore) ∧
      getKeyRoute "missing" 7 8 oneKeyStore = (KeyResponse.err 404 "Key not found", oneKeyStore)) :=
  ⟨by decide, getKey_notFound "missing" 7 8 oneKeyStore (by decide)⟩

/-- Counterexample for C7: with monotone clock reads `t0 = 0`, `t1 = 1`
(the source calls `utcnow()` twice), a key requested with lifetime 10 is
persisted with `expires_at = 11` while `created_at + lifetime = 10`, so
`expires_at = created_at + lifetime` fails. -/
theorem requestKey_two_clock_reads :
    (requestKey "a@x" "b@x" 10 "qkd_1" "KB" 0 1 emptyStore).1.created_at = 0 ∧
    (requestKey "a@x" "b@x" 10 "qkd_1" "KB" 0 1 emptyStore).1.expires_at = 11 ∧
    ¬((requestKey "a@x" "b@x" 10 "qkd_1" "KB" 0 1 emptyStore).1.expires_at
        = (requestKey "a@x" "b@x" 10 "qkd_1" "KB" 0 1 emptyStore).1.created_at + 10) :=
  ⟨rfl, rfl, by decide⟩

/-- C7 (amended): the persisted record satisfies `created_at = t0` and
`expires_at = t1 + lifetime`, where `t0` and `t1` are the two successive
`utcnow()` reads of `request_key`; hence `expires_at ≥ created_at +
lifetime`, with equality exactly when the two reads coincide. -/
theorem requestKey_expires_at (sender recipient : String) (L : Int) (kid kb : String)
    (t0 t1 : Int) (s : Store) (h : t0 ≤ t1) :
    (requestKey sender recipient L kid kb t0 t1 s).1.created_at = t0 ∧
    (requestKey sender recipient L kid kb t0 t1 s).1.expires_at = t1 + L ∧
    t0 + L ≤ (requestKey sender recipient L kid kb t0 t1 s).1.expires_at ∧
    (t1 = t0 →
      (requestKey sender recipient L kid kb t0 t1 s).1.expires_at
        = (requestKey sender recipient L kid kb t0 t1 s).1.created_at + L) := by
  refine ⟨rfl, rfl, ?_, ?_⟩
  · show t0 + L ≤ t1 + L
    omega
  · intro ht
    show t1 + L = t0 + L
    omega

/-- Witness for C7 (amended) at coinciding clock reads. -/
theorem requestKey_expires_at_witness :
    (0 : Int) ≤ 0 ∧
    ((requestKey "a@x" "b@x" 7 "qkd_1" "KB" 0 0 emptyStore).1.created_at = 0 ∧
      (requestKey "a@x" "b@x" 7 "qkd_1" "KB" 0 0 emptyStore).1.expires_at = 0 + 7 ∧
      (0 : Int) + 7 ≤ (requestKey "a@x" "b@x" 7 "qkd_1" "KB" 0 0 emptyStore).1.expires_at ∧
      ((0 : Int) = 0 →
        (requestKey "a@x" "b@x" 7 "qkd_1" "KB" 0 0 emptyStore).1.expires_at
          = (requestKey "a@x" "b@x" 7 "qkd_1" "KB" 0 0 emptyStore).1.created_at + 7)) :=
  ⟨by decide, requestKey_expires_at "a@x" "b@x" 7 "qkd_1" "KB" 0 0 emptyStore (by decide)⟩

/-- Counterexample for C6: the route validates nothing about `lifetime` —
a request with `lifetime = -5` is accepted (no `InvalidRequest`) and a key
record is created. -/
theorem requestKeyRoute_negative_lifetime :
    (requestKeyRoute (some "a@x") (some "b@x") (some (-5)) "qkd_2" "KB" 0 0 emptyStore).1
      = ReqResponse.ok "qkd_2" "KB" (-5) "AES-256-GCM" ∧
    (requestKeyRoute (some "a@x") (some "b@x") (some (-5)) "qkd_2" "KB" 0 0 emptyStore).2.keys.length
      = 1 :=
  ⟨by decide, by decide⟩

/-- C6 (amended): the `/request_key` route fails with 400 exactly when
`sender` or `recipient` is missing or empty (leaving the store unchanged),
and otherwise creates a key record for every `lifetime` value — the
`lifetime > 0` constraint is not enforced. -/
theorem requestKeyRoute_validation (sender recipient : Option String) (lifetime : Option Int)
    (kid kb : String) (t0 t1 : Int) (s : Store) :
    ((pyFalsy sender || pyFalsy recipient) = true →
      requestKeyRoute sender recipient lifetime kid kb t0 t1 s
        = (ReqResponse.err 400 "sender and recipient are required", s)) ∧
    ((pyFalsy sender || pyFalsy recipient) = false →
      (requestKeyRoute sender recipient lifetime kid kb t0 t1 s).1
          = ReqResponse.ok kid kb (t1 + lifetime.getD 3600) "AES-256-GCM" ∧
      (requestKeyRoute sender recipient lifetime kid kb t0 t1 s).2.keys
          = s.keys
            ++ [(requestKey (sender.getD "") (recipient.getD "") (lifetime.getD 3600)
                  kid kb t0 t1 s).1]) := by
  constructor
  · intro h
    unfold requestKeyRoute
    rw [if_pos h]
  · intro h
    unfold requestKeyRoute
    rw [if_neg (by simp [h])]
    exact ⟨rfl, rfl⟩

/-- Witness for C6 (amended): an empty sender is rejected with the store
unchanged, and a valid request with a non-positive lifetime creates the
record. -/
theorem requestKeyRoute_validation_witness :
    ((pyFalsy (some "") || pyFalsy (some "b@x")) = true ∧
      requestKeyRoute (some "") (some "b@x") none "qkd_3" "KB" 0 0 emptyStore
        = (ReqResponse.err 400 "sender and recipient are required", emptyStore)) ∧
    ((pyFalsy (some "a@x") || pyFalsy (some "b@x")) = false ∧
      (requestKeyRoute (some "a@x") (some "b@x") (some 0) "qkd_3" "KB" 0 0 emptyStore).1
        = ReqResponse.ok "qkd_3" "KB" ((0 : Int) + 0) "AES-256-GCM") :=
  ⟨⟨by decide,
    (requestKeyRoute_validation (some "") (some "b@x") none "qkd_3" "KB" 0 0 emptyStore).1
      (by decide)⟩,
   ⟨by decide,
    ((requestKeyRoute_validation (some "a@x") (some "b@x") (some 0) "qkd_3" "KB" 0 0
      emptyStore).2 (by decide)).1⟩⟩
/-- Counterexample for C4: a key requested at `t0 = 0` with lifetime 100
(both clock reads 0, so `expires_at = 100`) is reported `active` — not
`expired` — by the first `GetKey` at `t = t0 + L = 100`, because the source
compares with strict `>`. -/
theorem getKey_boundary :
    (getKey "k" 100 101 requestedStore).1
      = some { key_id := "k"
               key_b64 := "KB"
               sender := "a@x"
               recipient := "b@x"
               created_at := 0
               expires_at := 100
               status := KeyStatus.active
               algorithm := "AES-256-GCM"
               consumed_at := none } :=
  by decide

/-- C4 (amended): for a stored key row, `GetKey` reports the stored row
unchanged at every `now ≤ expires_at` and reports and persists `expired` at
every `now > expires_at`; once the stored status is `expired`, every
subsequent `GetKey` reports and keeps `expired`, `ConsumeKey` fails with
`KeyExpired` and keeps `expired`, and appending a freshly requested key
leaves the row intact — no operation returns an `expired` key to
`active`. -/
theorem getKey_expiry_lifecycle (s : Store) (kid : String) (row : KeyRow) (now tAcc : Int)
    (h : findKey s kid = some row) :
    (now ≤ row.expires_at →
      (getKey kid now tAcc s).1 = some row ∧
      findKey (getKey kid now tAcc s).2 kid = some row) ∧
    (row.expires_at < now →
      (getKey kid now tAcc s).1 = some { row with status := KeyStatus.expired } ∧
      findKey (getKey kid now tAcc s).2 kid = some { row with status := KeyStatus.expired }) ∧
    (row.status = KeyStatus.expired →
      ((getKey kid now tAcc s).1.map KeyRow.status = some KeyStatus.expired ∧
        (findKey (getKey kid now tAcc s).2 kid).map KeyRow.status = some KeyStatus.expired)) ∧
    (row.status = KeyStatus.expired →
      ((consumeKey kid now s).1 = ConsumeResult.keyExpired ∧
        (findKey (consumeKey kid now s).2 kid).map KeyRow.status = some KeyStatus.expired)) ∧
    (∀ sender recipient L kid2 kb,
      findKey (requestKey sender recipient L kid2 kb now tAcc s).2 kid = some row) := by
  have h' : s.keys.find? (fun r => r.key_id == kid) = some row := h
  have hkid : (row.key_id == kid) = true :=
    @List.find?_some KeyRow (fun r => r.key_id == kid) row s.keys h'
  have hkid' : row.key_id = kid := by simpa using hkid
  have hfind : ∀ st,
      findKey { keys := setExpired s.keys kid, log := st } kid
        = some { row with status := KeyStatus.expired } := by
    intro st
    show (setExpired s.keys kid).find? (fun r => r.key_id == kid) = _
    rw [findKey_setExpired s kid, h]
    simp [hkid']
  have h1 : now ≤ row.expires_at →
      (getKey kid now tAcc s).1 = some row ∧
      findKey (getKey kid now tAcc s).2 kid = some row := by
    intro hle
    have hp : decide (row.expires_at < now) = false := decide_eq_false (by omega)
    unfold getKey
    rw [h]
    simp only [hp, Bool.false_eq_true, if_false]
    exact ⟨by trivial, h⟩
  have h2 : row.expires_at < now →
      (getKey kid now tAcc s).1 = some { row with status := KeyStatus.expired } ∧
      findKey (getKey kid now tAcc s).2 kid = some { row with status := KeyStatus.expired } := by
    intro hlt
    have hp : decide (row.expires_at < now) = true := decide_eq_true hlt
    unfold getKey
    rw [h]
    simp only [hp, if_true]
    exact ⟨by trivial, hfind _⟩
  refine ⟨h1, h2, ?_, ?_, ?_⟩
  · intro hexp
    by_cases hlt : row.expires_at < now
    · rw [(h2 hlt).1, (h2 hlt).2]
      simp
    · rw [(h1 (by omega)).1, (h1 (by omega)).2]
      simp [hexp]
  · intro hexp
    unfold consumeKey
    rw [h]
    simp only [hexp]
    exact ⟨by trivial, by rw [show findKey s kid = some row from h]; simp [hexp]⟩
  · intro sender recipient L kid2 kb
    show ((s.keys ++ [_]).find? (fun r => r.key_id == kid)) = some row
    rw [List.find?_append, h']
    rfl

/-- Witness for C4 (amended): the lifecycle theorem applied to the
concrete requested key, with each hypothesis decided. -/
theorem getKey_expiry_lifecycle_witness :
    findKey requestedStore "k" = some (requestKey "a@x" "b@x" 100 "k" "KB" 0 0 emptyStore).1 ∧
    (50 : Int) ≤ (requestKey "a@x" "b@x" 100 "k" "KB" 0 0 emptyStore).1.expires_at ∧
    ((getKey "k" 50 51 requestedStore).1
        = some (requestKey "a@x" "b@x" 100 "k" "KB" 0 0 emptyStore).1 ∧
      findKey (getKey "k" 50 51 requestedStore).2 "k"
        = some (requestKey "a@x" "b@x" 100 "k" "KB" 0 0 emptyStore).1) :=
  ⟨by decide, by decide,
    (getKey_expiry_lifecycle requestedStore "k"
      (requestKey "a@x" "b@x" 100 "k" "KB" 0 0 emptyStore).1 50 51 (by decide)).1
      (by decide)⟩
/-- C1 (on the spec-modelled `consumeKey`): the lifecycle contract.
`ConsumeKey` on an absent id fails with `KeyNotFound` and changes nothing;
on an active, unexpired key it succeeds, sets `status = consumed` and
`consumed_at = now`, appends a `CONSUMED` usage-log entry, and a second
`ConsumeKey` on the same key then returns `AlreadyConsumed` rather than
silently succeeding; on an already-consumed key it returns
`AlreadyConsumed` without change; and on a key whose `expires_at` has
passed (or whose stored status is already `expired`) it fails with
`KeyExpired`. -/
theorem consumeKey_lifecycle (s : Store) (kid : String) (now : Int) :
    (findKey s kid = none → consumeKey kid now s = (ConsumeResult.keyNotFound, s)) ∧
    (∀ row, findKey s kid = some row → row.status = KeyStatus.active →
      ¬(row.expires_at < now) →
      (consumeKey kid now s).1 = ConsumeResult.ok ∧
      findKey (consumeKey kid now s).2 kid
        = some { row with status := KeyStatus.consumed, consumed_at := some now } ∧
      (consumeKey kid now s).2.log
        = s.log ++ [{ key_id := kid, action := "CONSUMED", timestamp := now,
                      details := "Key consumed" }] ∧
      (∀ now2, (consumeKey kid now2 (consumeKey kid now s).2).1
        = ConsumeResult.alreadyConsumed)) ∧
    (∀ row, findKey s kid = some row → row.status = KeyStatus.consumed →
      consumeKey kid now s = (ConsumeResult.alreadyConsumed, s)) ∧
    (∀ row, findKey s kid = some row →
      (row.status = KeyStatus.expired ∨
        (row.status = KeyStatus.active ∧ row.expires_at < now)) →
      (consumeKey kid now s).1 = ConsumeResult.keyExpired) := by
  refine ⟨?_, ?_, ?_, ?_⟩
  · intro h
    unfold consumeKey
    rw [h]
  · intro row h hact hnlt
    have h' : s.keys.find? (fun r => r.key_id == kid) = some row := h
    have hkid' : row.key_id = kid := by
      simpa using @List.find?_some KeyRow (fun r => r.key_id == kid) row s.keys h'
    have hstep : consumeKey kid now s
        = (ConsumeResult.ok,
           { keys := s.keys.map (fun r =>
               if r.key_id == kid then
                 { r with status := KeyStatus.consumed, consumed_at := some now }
               else r)
             log := s.log ++ [{ key_id := kid, action := "CONSUMED", timestamp := now,
                                details := "Key consumed" }] }) := by
      unfold consumeKey
      rw [h]
      simp only [hact]
      rw [if_neg hnlt]
    have hfound : findKey (consumeKey kid now s).2 kid
        = some { row with status := KeyStatus.consumed, consumed_at := some now } := by
      rw [hstep]
      show (s.keys.map (fun r =>
          if r.key_id == kid then
            { r with status := KeyStatus.consumed, consumed_at := some now }
          else r)).find? (fun r => r.key_id == kid) = _
      rw [find?_map_keyid (fun r =>
          if r.key_id == kid then
            { r with status := KeyStatus.consumed, consumed_at := some now }
          else r) (by
        intro r
        by_cases hr : (r.key_id == kid) = true <;> simp [hr]) kid s.keys, h']
      simp [hkid']
    refine ⟨by rw [hstep], hfound, by rw [hstep], ?_⟩
    intro now2
    generalize hS : (consumeKey kid now s).2 = s2 at hfound
    unfold consumeKey
    rw [hfound]
  · intro row h hcons
    unfold consumeKey
    rw [h]
    simp only [hcons]
  · intro row h hcase
    unfold consumeKey
    rw [h]
    rcases hcase with hexp | ⟨hact, hlt⟩
    · simp only [hexp]
    · simp only [hact]
      rw [if_pos hlt]

/-- Witness for C1: the contract applied to the concrete requested key of
`requestedStore` (active, `expires_at = 100`) consumed at `now = 50`. -/
theorem consumeKey_lifecycle_witness :
    findKey requestedStore "k" = some (requestKey "a@x" "b@x" 100 "k" "KB" 0 0 emptyStore).1 ∧
    (requestKey "a@x" "b@x" 100 "k" "KB" 0 0 emptyStore).1.status = KeyStatus.active ∧
    ¬((requestKey "a@x" "b@x" 100 "k" "KB" 0 0 emptyStore).1.expires_at < (50 : Int)) ∧
    ((consumeKey "k" 50 requestedStore).1 = ConsumeResult.ok ∧
      findKey (consumeKey "k" 50 requestedStore).2 "k"
        = some { (requestKey "a@x" "b@x" 100 "k" "KB" 0 0 emptyStore).1 with
                   status := KeyStatus.consumed, consumed_at := some 50 } ∧
      (consumeKey "k" 50 requestedStore).2.log
        = requestedStore.log
          ++ [{ key_id := "k", action := "CONSUMED", timestamp := 50,
                details := "Key consumed" }] ∧
      (∀ now2, (consumeKey "k" now2 (consumeKey "k" 50 requestedStore).2).1
        = ConsumeResult.alreadyConsumed)) :=
  ⟨by decide, by decide, by decide,
    (consumeKey_lifecycle requestedStore "k" 50).2.1
      (requestKey "a@x" "b@x" 100 "k" "KB" 0 0 emptyStore).1
      (by decide) (by decide) (by decide)⟩
/-- Counterexample for C2: `GetKey` on an existing active key answers 200
with the full `key_data` record, whose `key_b64` field is exactly the
stored key material — so `RequestKey` is not the only operation whose
result contains key material. -/
theorem getKeyRoute_returns_material :
    (getKeyRoute "k1" 50 60 oneKeyStore).1
      = KeyResponse.ok { key_id := "k1"
                         key_b64 := "U0VDUkVU"
                         sender := "a@x"
                         recipient := "b@x"
                         created_at := 0
                         expires_at := 100
                         status := KeyStatus.active
                         algorithm := "AES-256-GCM"
                         consumed_at := none } ∧
    oneKeyStore.keys.map KeyRow.key_b64 = ["U0VDUkVU"] :=
  ⟨by decide, by decide⟩

theorem insertDesc_map_created (g : KeyRow → KeyRow)
    (hg : ∀ r, (g r).created_at = r.created_at) :
    ∀ (r : KeyRow) (l : List KeyRow), insertDesc (g r) (l.map g) = (insertDesc r l).map g
  | r, [] => rfl
  | r, x :: xs => by
    simp only [List.map_cons, insertDesc, hg]
    by_cases hc : x.created_at < r.created_at
    · rw [if_pos hc, if_pos hc]
      rfl
    · rw [if_neg hc, if_neg hc, List.map_cons, insertDesc_map_created g hg r xs]

theorem sortDesc_map_created (g : KeyRow → KeyRow)
    (hg : ∀ r, (g r).created_at = r.created_at) :
    ∀ l : List KeyRow, sortDesc (l.map g) = (sortDesc l).map g
  | [] => rfl
  | x :: xs => by
    simp only [List.map_cons, sortDesc, sortDesc_map_created g hg xs,
      insertDesc_map_created g hg]

/-- C2 (amended): `RequestKey` and `GetKey` both return key material;
among the exposed operations, only the key listing never includes any key
material — its output is unchanged under arbitrary replacement of every
stored `key_b64` (the seven columns it selects omit the material). -/
theorem listKeys_no_material (s : Store) (f : KeyRow → String) :
    listKeys { keys := s.keys.map (fun r => { r with key_b64 := f r }), log := s.log }
      = listKeys s := by
  unfold listKeys
  show ((sortDesc (s.keys.map (fun r => { r with key_b64 := f r }))).take 50).map toListed = _
  rw [sortDesc_map_created (fun r => { r with key_b64 := f r }) (fun r => rfl) s.keys]
  rw [← List.map_take, List.map_map]
  have hcomp : toListed ∘ (fun r => { r with key_b64 := f r }) = toListed :=
    funext (fun r => rfl)
  rw [hcomp]

/-- Counterexample for C9: the `/keys` route takes no owner filter — on a
store holding keys of two different owners it returns both, so its output
is not restricted to any requested owner (nor does any requested limit
exist; the cap is the fixed `LIMIT 50`). -/
theorem listKeys_mixed_owners :
    (listKeys twoOwnerStore).map ListedKey.sender = ["c@y", "a@x"] ∧
    (listKeys twoOwnerStore).length = 2 :=
  ⟨by decide, by decide⟩

theorem insertDesc_perm (r : KeyRow) : ∀ l, List.Perm (insertDesc r l) (r :: l)
  | [] => List.Perm.refl _
  | x :: xs => by
    unfold insertDesc
    by_cases hc : x.created_at < r.created_at
    · rw [if_pos hc]
    · rw [if_neg hc]
      exact ((insertDesc_perm r xs).cons x).trans (List.Perm.swap r x xs)

theorem sortDesc_perm : ∀ l, List.Perm (sortDesc l) l
  | [] => List.Perm.refl _
  | x :: xs => (insertDesc_perm x (sortDesc xs)).trans ((sortDesc_perm xs).cons x)

theorem insertDesc_pairwise (r : KeyRow) :
    ∀ l, List.Pairwise (fun a b : KeyRow => b.created_at ≤ a.created_at) l →
      List.Pairwise (fun a b : KeyRow => b.created_at ≤ a.created_at) (insertDesc r l)
  | [], _ => by simp [insertDesc]
  | x :: xs, h => by
    obtain ⟨hx, hxs⟩ := List.pairwise_cons.mp h
    unfold insertDesc
    by_cases hc : x.created_at < r.created_at
    · rw [if_pos hc]
      refine List.Pairwise.cons ?_ h
      intro y hy
      rcases List.mem_cons.mp hy with rfl | hy
      · omega
      · have := hx y hy
        omega
    · rw [if_neg hc]
      refine List.Pairwise.cons ?_ (insertDesc_pairwise r xs hxs)
      intro y hy
      have hy' : y = r ∨ y ∈ xs := by
        have := (insertDesc_perm r xs).mem_iff.mp hy
        simpa using this
      rcases hy' with rfl | hy'
      · omega
      · exact hx y hy'

theorem sortDesc_pairwise :
    ∀ l, List.Pairwise (fun a b : KeyRow => b.created_at ≤ a.created_at) (sortDesc l)
  | [] => by simp [sortDesc]
  | x :: xs => insertDesc_pairwise x (sortDesc xs) (sortDesc_pairwise xs)

/-- C9 (amended): the `/keys` route returns at most 50 records (the fixed
`LIMIT 50`, not a caller-chosen limit), ordered by `created_at` descending;
every returned record is the projection of a stored key, and when at most
50 keys are stored every stored key of every owner appears — there is no
owner filter. -/
theorem listKeys_spec (s : Store) :
    (listKeys s).length = min 50 s.keys.length ∧
    List.Pairwise (fun a b : ListedKey => b.created_at ≤ a.created_at) (listKeys s) ∧
    (∀ k ∈ listKeys s, ∃ r ∈ s.keys, toListed r = k) ∧
    (s.keys.length ≤ 50 → ∀ r ∈ s.keys, toListed r ∈ listKeys s) := by
  have hperm := sortDesc_perm s.keys
  have hlen : (sortDesc s.keys).length = s.keys.length := hperm.length_eq
  refine ⟨?_, ?_, ?_, ?_⟩
  · simp [listKeys, List.length_take, hlen]
  · unfold listKeys
    rw [List.pairwise_map]
    exact List.Pairwise.sublist (List.take_sublist 50 _) (sortDesc_pairwise s.keys)
  · intro k hk
    obtain ⟨r, hr, rfl⟩ := List.mem_map.mp hk
    exact ⟨r, hperm.mem_iff.mp (List.mem_of_mem_take hr), rfl⟩
  · intro hle r hr
    unfold listKeys
    rw [List.take_of_length_le (by omega)]
    exact List.mem_map_of_mem toListed (hperm.mem_iff.mpr hr)

/-- Witness for C9 (amended): with two stored keys, every stored key is
listed. -/
theorem listKeys_spec_witness :
    twoOwnerStore.keys.length ≤ 50 ∧
    toListed { key_id := "k1"
               key_b64 := "S0Ix"
               sender := "a@x"
               recipient := "b@x"
               created_at := 1
               expires_at := 100
               status := KeyStatus.active
               algorithm := "AES-256-GCM"
               consumed_at := none } ∈ listKeys twoOwnerStore :=
  ⟨by decide,
    (listKeys_spec twoOwnerStore).2.2.2 (by decide)
      { key_id := "k1"
        key_b64 := "S0Ix"
        sender := "a@x"
        recipient := "b@x"
        created_at := 1
        expires_at := 100
        status := KeyStatus.active
        algorithm := "AES-256-GCM"
        consumed_at := none } (by decide)⟩

set_option maxRecDepth 1000000 in
/-- Counterexample for C5: a genuine envelope whose protocol-version tag
has been corrupted (to `9.9`) still decrypts successfully with the correct
key, nonce, ciphertext and tag — no authentication failure occurs. -/
theorem decrypt_succeeds_corrupted_version :
    corruptedVersionPayload.version ≠ "1.0" ∧
    decrypt_qumail_payload (fun b => b + 1) corruptedVersionPayload = some [72, 105] :=
  ⟨by decide, by decide⟩

/-- C5 (amended): `decrypt_message` never reads the envelope's version
field — no associated data is passed to the AEAD — so the decryption
result is identical for every value of the version tag, corrupted or
not. -/
theorem decrypt_ignores_version (E : Nat → Nat) (p : Payload) (v : String) :
    decrypt_qumail_payload E { p with version := v } = decrypt_qumail_payload E p := rfl
end QuMail
